import Mathlib

/-!
Verification of the OpenSurgSim physics core against its specification.

The definitions below are shallow embeddings of the C++ sources:
doubles are modelled as exact rationals where the code is pure rational
arithmetic, and as real numbers where the code takes square roots
(vector norms in the collision calculators).  Stateful C++ methods become
explicit state-passing functions; fallible lookups return Option.
-/

namespace OpenSurgSim

/-! ## ConstraintImplementationFactory (src/SurgSim/Physics/ConstraintImplementationFactory.cpp)

The factory stores a 2D array indexed by representation type and MLCP
constraint type.  The enum definitions themselves are not part of the
sources; in-range indices are modelled as Fin values, so the assertion
guards of getImplementation (which abort on out-of-range values) are
satisfied by construction.  The logged warning of getImplementation is
modelled as the Bool component of its result. -/

/-- Shallow model of a concrete ConstraintImplementation: an identity plus the
two keys it reports through getRepresentationType and getMlcpConstraintType. -/
structure ConstraintImplementation (R C : ℕ) where
  ident : ℕ
  representationType : Fin R
  mlcpConstraintType : Fin C
deriving DecidableEq

/-- Shallow model of ConstraintImplementationFactory: the m_implementations
table maps each in-range (representation type, constraint type) pair to an
optional implementation. -/
structure ConstraintImplementationFactory (R C : ℕ) where
  implementations : Fin R → Fin C → Option (ConstraintImplementation R C)

/-- Embedding of ConstraintImplementationFactory::addImplementation: stores the
implementation at the indices it reports. -/
def ConstraintImplementationFactory.addImplementation {R C : ℕ}
    (fac : ConstraintImplementationFactory R C) (impl : ConstraintImplementation R C) :
    ConstraintImplementationFactory R C where
  implementations := fun r c =>
    if r = impl.representationType ∧ c = impl.mlcpConstraintType then some impl
    else fac.implementations r c

/-- Embedding of ConstraintImplementationFactory::getImplementation for in-range
indices: returns the stored entry (none when unregistered) together with a Bool
recording whether the warning was logged (SURGSIM_LOG_IF fires exactly when the
entry is null).  The function is total: no exception path exists. -/
def ConstraintImplementationFactory.getImplementation {R C : ℕ}
    (fac : ConstraintImplementationFactory R C) (r : Fin R) (c : Fin C) :
    Option (ConstraintImplementation R C) × Bool :=
  (fac.implementations r c, (fac.implementations r c).isNone)

/-! ## PushResults (src/SurgSim/Physics/PushResults.cpp) -/

/-- Dense matrix-vector product for the CHt matrix stored as a list of rows,
mirroring dofCorrection = CHt * lambda. -/
def matVecQ (rows : List (List ℚ)) (v : List ℚ) : List ℚ :=
  rows.map fun row => (row.zip v).foldl (fun acc p => acc + p.1 * p.2) 0

/-- Slice of the global dof-correction vector: block(index, 0, numDof, 1). -/
def blockQ (l : List ℚ) (index numDof : ℕ) : List ℚ :=
  (l.drop index).take numDof

/-- Shallow model of a physics Representation as seen by PushResults: its
assigned column index in the global dof vector, its dof count, its current
dof state, and the behaviour of its virtual applyDofCorrection (dt, correction
block, current dof state ↦ new dof state). -/
structure PhysRep where
  index : ℕ
  numDof : ℕ
  dofState : List ℚ
  applyCorr : ℚ → List ℚ → List ℚ → List ℚ

/-- Shallow model of PhysicsManagerState as used by PushResults::doUpdate:
the MLCP solution vector x, the derived dofCorrection, the CHt matrix of the
MLCP problem, and the representations. -/
structure PhysicsManagerState where
  solutionX : List ℚ
  dofCorrection : List ℚ
  CHt : List (List ℚ)
  representations : List PhysRep

/-- Embedding of PushResults::doUpdate: when the Lagrange multiplier vector x
is empty the state is returned unchanged; otherwise dofCorrection = CHt * x is
computed and every representation receives its block through
applyDofCorrection. -/
def PushResults.doUpdate (dt : ℚ) (state : PhysicsManagerState) : PhysicsManagerState :=
  if state.solutionX = [] then state
  else
    let dofCorrection := matVecQ state.CHt state.solutionX
    { state with
      dofCorrection := dofCorrection
      representations := state.representations.map fun r =>
        { r with dofState := r.applyCorr dt (blockQ dofCorrection r.index r.numDof) r.dofState } }

/-! ## ContactCalculation pair swapping (src/SurgSim/Physics/ContactCalculation.h) -/

/-- Shallow model of a collision Representation for the swap logic: an identity
and the int shape type it reports. -/
structure CollisionRep where
  ident : ℕ
  shapeType : ℤ
deriving DecidableEq

/-- Shallow model of a CollisionPair for the swap logic. -/
structure CollisionPairR where
  first : CollisionRep
  second : CollisionRep
deriving DecidableEq

/-- Embedding of CollisionPair::swapRepresentations. -/
def CollisionPairR.swapRepresentations (p : CollisionPairR) : CollisionPairR where
  first := p.second
  second := p.first

/-- Embedding of ContactCalculation::needsSwap: swap exactly when the types
differ and the pair is in the reverse of the declared order. -/
def ContactCalculation.needsSwap (shapeTypes : ℤ × ℤ)
    (firstShapeType secondShapeType : ℤ) : Bool :=
  firstShapeType != secondShapeType && firstShapeType == shapeTypes.2 &&
    secondShapeType == shapeTypes.1

/-- Embedding of the pair-preparation step of ContactCalculation::calculateContact:
the pair, swapped when needsSwap holds, exactly as it is then handed to
doCalculateContact. -/
def ContactCalculation.delegatedPair (shapeTypes : ℤ × ℤ)
    (pair : CollisionPairR) : CollisionPairR :=
  if ContactCalculation.needsSwap shapeTypes pair.first.shapeType pair.second.shapeType
  then pair.swapRepresentations
  else pair

/-! ## MassSpringRepresentation (src/SurgSim/Physics/MassSpringRepresentation.cpp)

Each node carries a 3-vector of position, velocity and force; the flat Eigen
vectors m_x, m_v, m_f are modelled per node as functions Fin n → Fin 3 → ℚ.
Spring forces are produced by the getF of the edge data, modelled as an opaque
function field per spring. -/

/-- Per-node 3-vector of rationals. -/
abbrev Q3 := Fin 3 → ℚ

/-- Shallow model of the constant data of a MassSpringRepresentation: node
masses, gravity settings, Rayleigh mass damping coefficient, springs (two node
indices plus the LinearSpringParameter::getF force law applied to the two
positions and the two velocities), and the boundary condition node list. -/
structure MassSpringModel (n : ℕ) where
  mass : Fin n → ℚ
  gravityEnabled : Bool
  gravity : Q3
  rayleighMassCoefficient : ℚ
  springs : List (Fin n × Fin n × (Q3 → Q3 → Q3 → Q3 → Q3))
  boundaryConditions : List (Fin n)

/-- Embedding of MassSpringRepresentation::addRayleighDampingForce (the
stiffness part of the source is commented out): subtracts
scale * massCoefficient * mass * velocity from the force of every node when
the coefficient is nonzero. -/
def addRayleighDampingForce {n : ℕ} (m : MassSpringModel n) (scale : ℚ)
    (f : Fin n → Q3) (v : Fin n → Q3) : Fin n → Q3 :=
  if m.rayleighMassCoefficient ≠ 0 then
    fun i k => f i k - scale * m.rayleighMassCoefficient * m.mass i * v i k
  else f

/-- Force accumulation of MassSpringRepresentation::updateEulerExplicit steps
1–3: zero the force vector, assign the gravity force when gravity is enabled,
add Rayleigh damping, then fold the spring forces (f[node0] += fs,
f[node1] -= fs, applied sequentially per spring). -/
def accumulateForces {n : ℕ} (m : MassSpringModel n)
    (x v : Fin n → Q3) : Fin n → Q3 :=
  let f0 : Fin n → Q3 := fun _ _ => 0
  let f1 : Fin n → Q3 :=
    if m.gravityEnabled then fun i k => m.gravity k * m.mass i else f0
  let f2 := addRayleighDampingForce m 1 f1 v
  m.springs.foldl
    (fun f s =>
      let fs := s.2.2 (x s.1) (x s.2.1) (v s.1) (v s.2.1)
      let fa := Function.update f s.1 (fun k => f s.1 k + fs k)
      Function.update fa s.2.1 (fun k => fa s.2.1 k - fs k))
    f2

/-- Zeroing of the three components of every boundary condition node, applied
in the order the boundary conditions are stored, as in the loops of
updateEulerExplicit step 5. -/
def zeroBoundaryNodes {n : ℕ} (bcs : List (Fin n)) (w : Fin n → Q3) : Fin n → Q3 :=
  bcs.foldl (fun w bc => Function.update w bc (fun _ => 0)) w

/-- Embedding of MassSpringRepresentation::updateEulerExplicit: accumulate
forces, divide by the node mass to get accelerations (stored back into m_f as
in the source), then integrate.  With useModifiedEuler the velocity is updated
first, boundary condition velocities are zeroed, and the position uses the new
velocity; otherwise forces and velocities of boundary condition nodes are
zeroed, the position uses the old velocity, and the velocity then uses the
acceleration.  Returns (new m_x, new m_v, final m_f). -/
def updateEulerExplicit {n : ℕ} (m : MassSpringModel n) (dt : ℚ)
    (useModifiedEuler : Bool) (x v : Fin n → Q3) :
    (Fin n → Q3) × (Fin n → Q3) × (Fin n → Q3) :=
  let fRaw := accumulateForces m x v
  let a : Fin n → Q3 := fun i k => fRaw i k / m.mass i
  if useModifiedEuler then
    let v1 : Fin n → Q3 := fun i k => v i k + a i k * dt
    let v2 := zeroBoundaryNodes m.boundaryConditions v1
    let x1 : Fin n → Q3 := fun i k => x i k + v2 i k * dt
    (x1, v2, a)
  else
    let a1 := zeroBoundaryNodes m.boundaryConditions a
    let v1 := zeroBoundaryNodes m.boundaryConditions v
    let x1 : Fin n → Q3 := fun i k => x i k + v1 i k * dt
    let v2 : Fin n → Q3 := fun i k => v1 i k + a1 i k * dt
    (x1, v2, a1)

/-- Embedding of MassSpringRepresentation::applyDofCorrection: the body only
tests isActive and then does nothing, so the state (positions, velocities) is
returned unchanged in both branches. -/
def MassSpringRepresentation.applyDofCorrection {n : ℕ} (isActive : Bool)
    (dt : ℚ) (block : List ℚ) (x v : Fin n → Q3) :
    (Fin n → Q3) × (Fin n → Q3) :=
  if ! isActive then (x, v) else (x, v)

/-- One tick-level action on a mass-spring state: either an integration step
(with its dt and scheme) or a constraint correction step through
applyDofCorrection (with its dt and correction block). -/
inductive MassSpringStep where
  | integrate (dt : ℚ) (useModifiedEuler : Bool)
  | correct (isActive : Bool) (dt : ℚ) (block : List ℚ)

/-- Run a sequence of integration and correction steps on (positions,
velocities). -/
def runMassSpringSteps {n : ℕ} (m : MassSpringModel n)
    (steps : List MassSpringStep) (s : (Fin n → Q3) × (Fin n → Q3)) :
    (Fin n → Q3) × (Fin n → Q3) :=
  steps.foldl
    (fun s st =>
      match st with
      | MassSpringStep.integrate dt useModified =>
          let r := updateEulerExplicit m dt useModified s.1 s.2
          (r.1, r.2.1)
      | MassSpringStep.correct isActive dt block =>
          MassSpringRepresentation.applyDofCorrection isActive dt block s.1 s.2)
    s

/-- Concrete one-node mass-spring model used to exercise the boundary
condition handling: unit mass, gravity enabled with a nonzero y component, no
damping, no springs, and node 0 fixed. -/
def msCexModel : MassSpringModel 1 where
  mass := fun _ => 1
  gravityEnabled := true
  gravity := fun k => if k = 1 then -10 else 0
  rayleighMassCoefficient := 0
  springs := []
  boundaryConditions := [0]

/-! ## ODE solvers (src/SurgSim/Math/OdeSolverEulerExplicitModified-inl.h and
src/SurgSim/Math/OdeSolverLinearEulerExplicitModified-inl.h)

The solvers are C++ templates over the state, matrix and solver types; they
are embedded over rational vectors and matrices, with the
m_solveAndInverse member (whose LinearSolveAndInverse implementation is not
among the sources) kept as a function parameter returning the solution of
systemMatrix * deltaV = f together with the compliance matrix (the inverse of
the system matrix). -/

/-- Shallow model of the per-representation ODE state: flat vectors of
positions, velocities and accelerations. -/
structure OdeStateQ (n : ℕ) where
  positions : Fin n → ℚ
  velocities : Fin n → ℚ
  accelerations : Fin n → ℚ

/-- Shallow model of OdeEquation as used by the explicit solvers: computeF and
computeM evaluated on the current state. -/
structure OdeEquationQ (n : ℕ) where
  computeF : OdeStateQ n → Fin n → ℚ
  computeM : OdeStateQ n → Matrix (Fin n) (Fin n) ℚ

/-- Type of the m_solveAndInverse member: from the system matrix and the
right-hand side, produce the solution vector and the inverse (compliance). -/
abbrev SolveAndInverse (n : ℕ) :=
  Matrix (Fin n) (Fin n) ℚ → (Fin n → ℚ) → (Fin n → ℚ) × Matrix (Fin n) (Fin n) ℚ

/-- Embedding of ModifiedExplicitEuler::solve: assemble the system matrix
M * (1/dt), solve for deltaV and the compliance, set the new velocities to
v + deltaV, the new positions to x + dt * (new velocities), and the
accelerations to deltaV / dt.  Returns the new state and the compliance
matrix cached by the solver. -/
def ModifiedExplicitEuler.solve {n : ℕ} (eq : OdeEquationQ n) (sa : SolveAndInverse n)
    (dt : ℚ) (currentState : OdeStateQ n) : OdeStateQ n × Matrix (Fin n) (Fin n) ℚ :=
  let f := eq.computeF currentState
  let M := eq.computeM currentState
  let MsystemMatrix := (1 / dt) • M
  let dvc := sa MsystemMatrix f
  let deltaV := dvc.1
  ({ velocities := fun i => currentState.velocities i + deltaV i
     positions := fun i => currentState.positions i + dt * (currentState.velocities i + deltaV i)
     accelerations := fun i => deltaV i / dt }, dvc.2)

/-- New state produced by one ModifiedExplicitEuler::solve call. -/
def odeStep {n : ℕ} (eq : OdeEquationQ n) (sa : SolveAndInverse n) (dt : ℚ)
    (s : OdeStateQ n) : OdeStateQ n :=
  (ModifiedExplicitEuler.solve eq sa dt s).1

/-- Persistent solver state of LinearModifiedExplicitEuler: the m_initialized
flag and the cached m_compliance matrix. -/
structure LinearSolverState (n : ℕ) where
  initialized : Bool
  compliance : Matrix (Fin n) (Fin n) ℚ

/-- Embedding of LinearModifiedExplicitEuler::solve.  The first call delegates
to the full ModifiedExplicitEuler::solve and caches the compliance.  Later
calls recompute only the force vector, take deltaV = compliance * f, update
velocities and positions — and then divide the accelerations already present
in the newState buffer of the caller by dt, without storing deltaV into them (the
newStateBuffer argument models the in-out newState parameter whose prior
accelerations the source reads in that branch). -/
def LinearModifiedExplicitEuler.solve {n : ℕ} (eq : OdeEquationQ n) (sa : SolveAndInverse n)
    (dt : ℚ) (st : LinearSolverState n) (currentState newStateBuffer : OdeStateQ n) :
    OdeStateQ n × LinearSolverState n :=
  if st.initialized = false then
    let rc := ModifiedExplicitEuler.solve eq sa dt currentState
    (rc.1, { initialized := true, compliance := rc.2 })
  else
    let f := eq.computeF currentState
    let deltaV := st.compliance.mulVec f
    ({ velocities := fun i => currentState.velocities i + deltaV i
       positions := fun i => currentState.positions i + dt * (currentState.velocities i + deltaV i)
       accelerations := fun i => newStateBuffer.accelerations i / dt }, st)

/-- Identity ODE equation used as the witness system: zero force and unit
mass matrix on one degree of freedom. -/
def odeEqZero : OdeEquationQ 1 where
  computeF := fun _ _ => 0
  computeM := fun _ => 1

/-- Diagonal solver used by the witnesses: componentwise division by the
diagonal entry, with the diagonal inverse as compliance. -/
def saDiag : SolveAndInverse 1 :=
  fun A f => (fun i => f i / A i i, Matrix.of fun i j => if i = j then 1 / A i i else 0)

/-- Force-one ODE equation: constant unit force and unit mass matrix on one
degree of freedom; M, D, K are constant across ticks, as the linear solver
requires. -/
def odeEqC7 : OdeEquationQ 1 where
  computeF := fun _ _ => 1
  computeM := fun _ => 1

/-- Initial state for the C7 run. -/
def c7s0 : OdeStateQ 1 := ⟨fun _ => 0, fun _ => 0, fun _ => 0⟩

/-- First call of the linear solver on the C7 system (uninitialized state,
delegates to the full solve and caches the compliance). -/
def c7lin1 : OdeStateQ 1 × LinearSolverState 1 :=
  LinearModifiedExplicitEuler.solve odeEqC7 saDiag (1/2) ⟨false, 0⟩ c7s0 c7s0

/-! ## Narrow-phase contact calculators (src/SurgSim/Collision/SphereSphereDcdContact.cpp
and src/SurgSim/Collision/BoxSphereDcdContact.cpp)

Doubles are modelled as real numbers because the calculators take vector norms
(square roots).  A Contact carries the depth, the normal and the two global
penetration points, and addContact is modelled by returning at most one
contact as an Option. -/

noncomputable section

/-- Global 3-vector of reals. -/
abbrev V3 := Fin 3 → ℝ

/-- Construction of a 3-vector from its components. -/
def vec3 (a b c : ℝ) : V3 := fun i => if i = 0 then a else if i = 1 then b else c

/-- Euclidean dot product on V3. -/
def dotV (a b : V3) : ℝ := a 0 * b 0 + a 1 * b 1 + a 2 * b 2

/-- Euclidean norm on V3 (Eigen norm()). -/
def normV (a : V3) : ℝ := Real.sqrt (dotV a a)

/-- Shallow model of a Contact record as appended by CollisionPair::addContact:
penetration depth, contact normal, and the two global penetration points. -/
structure Contact where
  depth : ℝ
  normal : V3
  penetrationFirst : V3
  penetrationSecond : V3

/-- Modelled from the spec: the fixed small epsilons of SurgSim::Math::Geometry
(the Geometry.h header is not among the sources); the spec only requires them
to be fixed, small and positive, and the proofs below use only positivity. -/
def DistanceEpsilon : ℝ := 1 / 10 ^ 10

/-- Modelled from the spec: squared counterpart of DistanceEpsilon. -/
def SquaredDistanceEpsilon : ℝ := 1 / 10 ^ 20

/-- Modelled from the spec: SurgSim::Math::indexOfMinimum on three values (the
header defining it is not among the sources); the spec fixes its contract as
the index of the minimum with ties resolved in axis order (x, y, z). -/
def indexOfMinimum (a b c : ℝ) : Fin 3 :=
  if a ≤ b then (if a ≤ c then 0 else 2) else (if b ≤ c then 1 else 2)

/-- Rigid transform of a representation pose: linear part and translation. -/
structure RigidTransform3 where
  linear : Matrix (Fin 3) (Fin 3) ℝ
  translation : V3

/-- Application of a pose to a point. -/
def RigidTransform3.apply (t : RigidTransform3) (p : V3) : V3 :=
  fun i => t.linear.mulVec p i + t.translation i

/-- Application of the inverse pose to a point (pose.inverse() * p). -/
def RigidTransform3.applyInverse (t : RigidTransform3) (p : V3) : V3 :=
  (t.linear)⁻¹.mulVec (p - t.translation)

/-- Half sizes of the box (Vector3d boxSize in the source). -/
def boxHalfSize (sizeX sizeY sizeZ : ℝ) : V3 :=
  vec3 (sizeX * (1/2)) (sizeY * (1/2)) (sizeZ * (1/2))

/-- Clamp of the box-local sphere center into the box (the min/max chain of
the source). -/
def boxClosestPoint (boxSize center : V3) : V3 :=
  fun i => max (-(boxSize i)) (min (boxSize i) (center i))

/-- Vector from the box-local sphere center to its clamped closest point. -/
def boxNormal0 (boxSize center : V3) : V3 :=
  boxClosestPoint boxSize center - center

/-- Squared distance between the closest point and the box-local center. -/
def boxDistanceSquared (boxSize center : V3) : ℝ :=
  dotV (boxNormal0 boxSize center) (boxNormal0 boxSize center)

/-- Box-local part of BoxSphereDcdContact::doCalculateContact (the source
computation in the box coordinate system): reject when the squared distance
exceeds the squared radius by more than SquaredDistanceEpsilon; when the
center is inside the box pick the closest face (ties by axis order through
indexOfMinimum) with the sign from the DistanceEpsilon test; otherwise
normalize the center-to-closest-point vector.  Produces (distance, box-local
normal, box-local closest point). -/
def BoxSphereDcdContact.localContact (center : V3)
    (sizeX sizeY sizeZ radius : ℝ) : Option (ℝ × V3 × V3) :=
  let boxSize := boxHalfSize sizeX sizeY sizeZ
  if SquaredDistanceEpsilon < boxDistanceSquared boxSize center - radius * radius then
    none
  else if boxDistanceSquared boxSize center ≤ SquaredDistanceEpsilon then
    let distancesFromFaces := vec3 (boxSize 0 - |boxClosestPoint boxSize center 0|)
      (boxSize 1 - |boxClosestPoint boxSize center 1|)
      (boxSize 2 - |boxClosestPoint boxSize center 2|)
    let minimumDistanceId := indexOfMinimum (distancesFromFaces 0)
      (distancesFromFaces 1) (distancesFromFaces 2)
    let direction : ℝ :=
      if -DistanceEpsilon < boxClosestPoint boxSize center minimumDistanceId then 1 else -1
    some (-|distancesFromFaces minimumDistanceId|,
      (fun i => if i = minimumDistanceId then direction else 0),
      Function.update (boxClosestPoint boxSize center) minimumDistanceId
        (boxSize minimumDistanceId * direction))
  else
    some (normV (boxNormal0 boxSize center),
      (1 / normV (boxNormal0 boxSize center)) • boxNormal0 boxSize center,
      boxClosestPoint boxSize center)

/-- Embedding of BoxSphereDcdContact::doCalculateContact: transform the sphere
center into box coordinates, run the box-local computation, then transform the
normal and closest point back to world coordinates and build the contact with
depth abs(distance - radius) and the sphere-side penetration point along the
world normal. -/
def BoxSphereDcdContact.doCalculateContact (boxPose : RigidTransform3)
    (sphereCenter : V3) (sizeX sizeY sizeZ radius : ℝ) : Option Contact :=
  match BoxSphereDcdContact.localContact (boxPose.applyInverse sphereCenter)
      sizeX sizeY sizeZ radius with
  | none => none
  | some (distance, normalLocal, closestPoint) =>
    let normal := boxPose.linear.mulVec normalLocal
    some { depth := |distance - radius|
           normal := normal
           penetrationFirst := boxPose.apply closestPoint
           penetrationSecond := fun i => sphereCenter i + radius * normal i }

/-- Embedding of SphereSphereDcdContact::doCalculateContact: the centers are
the pose translations of the two representations; when the center distance is
below the radius sum, exactly one contact is added whose normal is the
normalized difference firstCenter - secondCenter (division by the norm,
with no guard against a zero-length difference), whose depth is the radius
sum minus the distance, and whose penetration points sit on the two sphere
surfaces along the normal. -/
def SphereSphereDcdContact.doCalculateContact (firstCenter secondCenter : V3)
    (firstRadius secondRadius : ℝ) : Option Contact :=
  let normal0 : V3 := firstCenter - secondCenter
  let dist : ℝ := normV normal0
  let maxDist : ℝ := firstRadius + secondRadius
  if dist < maxDist then
    let normal : V3 := (1 / dist) • normal0
    some { depth := maxDist - dist
           normal := normal
           penetrationFirst := firstCenter - firstRadius • normal
           penetrationSecond := secondCenter + secondRadius • normal }
  else none

end

end OpenSurgSim

namespace OpenSurgSim

/-! ## Support lemmas for the vector norm -/

/-- Nonnegativity of the dot square. -/
lemma dotV_self_nonneg (a : V3) : 0 ≤ dotV a a :=
  add_nonneg (add_nonneg (mul_self_nonneg (a 0)) (mul_self_nonneg (a 1)))
    (mul_self_nonneg (a 2))

/-- Nonnegativity of the norm. -/
lemma normV_nonneg (a : V3) : 0 ≤ normV a := Real.sqrt_nonneg _

/-- Scaling of the dot square. -/
lemma dotV_smul_self (c : ℝ) (a : V3) : dotV (c • a) (c • a) = c ^ 2 * dotV a a := by
  show c * a 0 * (c * a 0) + c * a 1 * (c * a 1) + c * a 2 * (c * a 2) =
    c ^ 2 * (a 0 * a 0 + a 1 * a 1 + a 2 * a 2)
  ring

/-- Norm of a scaled vector. -/
lemma normV_smul (c : ℝ) (a : V3) : normV (c • a) = |c| * normV a := by
  unfold normV
  rw [dotV_smul_self, Real.sqrt_mul (sq_nonneg c), Real.sqrt_sq_eq_abs]

/-- Norm of the normalized vector is one when the norm is nonzero. -/
lemma normV_normalize (a : V3) (h : normV a ≠ 0) : normV ((1 / normV a) • a) = 1 := by
  rw [normV_smul]
  have hpos : 0 < normV a := lt_of_le_of_ne (normV_nonneg a) (Ne.symm h)
  rw [abs_of_pos (by positivity)]
  field_simp

/-- Componentwise difference of explicit 3-vectors. -/
lemma vec3_sub (a b c d e f : ℝ) :
    vec3 a b c - vec3 d e f = vec3 (a - d) (b - e) (c - f) := by
  funext i
  show (if i = 0 then a else if i = 1 then b else c) -
      (if i = 0 then d else if i = 1 then e else f) =
    (if i = 0 then a - d else if i = 1 then b - e else c - f)
  split_ifs <;> rfl

/-- Componentwise sum of explicit 3-vectors. -/
lemma vec3_add (a b c d e f : ℝ) :
    vec3 a b c + vec3 d e f = vec3 (a + d) (b + e) (c + f) := by
  funext i
  show (if i = 0 then a else if i = 1 then b else c) +
      (if i = 0 then d else if i = 1 then e else f) =
    (if i = 0 then a + d else if i = 1 then b + e else c + f)
  split_ifs <;> rfl

/-- Componentwise scaling of explicit 3-vectors. -/
lemma vec3_smul (s a b c : ℝ) :
    s • vec3 a b c = vec3 (s * a) (s * b) (s * c) := by
  funext i
  show s * (if i = 0 then a else if i = 1 then b else c) =
    (if i = 0 then s * a else if i = 1 then s * b else s * c)
  split_ifs <;> rfl

/-- Norm of a vector along the x axis. -/
lemma normV_vec3_x (x : ℝ) : normV (vec3 x 0 0) = |x| := by
  have h0 : vec3 x 0 0 0 = x := rfl
  have h1 : vec3 x 0 0 1 = 0 := rfl
  have h2 : vec3 x 0 0 2 = 0 := rfl
  unfold normV dotV
  rw [h0, h1, h2, show x * x + 0 * 0 + 0 * 0 = x * x by ring]
  exact Real.sqrt_mul_self_eq_abs x

/-- Norm of a vector supported on one axis. -/
lemma normV_axis (m : Fin 3) (dir : ℝ) :
    normV (fun i => if i = m then dir else 0) = |dir| := by
  fin_cases m
  · unfold normV dotV
    show Real.sqrt (dir * dir + 0 * 0 + 0 * 0) = |dir|
    rw [show dir * dir + 0 * 0 + 0 * 0 = dir * dir by ring]
    exact Real.sqrt_mul_self_eq_abs dir
  · unfold normV dotV
    show Real.sqrt (0 * 0 + dir * dir + 0 * 0) = |dir|
    rw [show (0:ℝ) * 0 + dir * dir + 0 * 0 = dir * dir by ring]
    exact Real.sqrt_mul_self_eq_abs dir
  · unfold normV dotV
    show Real.sqrt (0 * 0 + 0 * 0 + dir * dir) = |dir|
    rw [show (0:ℝ) * 0 + 0 * 0 + dir * dir = dir * dir by ring]
    exact Real.sqrt_mul_self_eq_abs dir

/-- Reassembly of a 3-vector from its components. -/
lemma vec3_eta (v : V3) : vec3 (v 0) (v 1) (v 2) = v := by
  funext i
  fin_cases i <;> rfl

/-- Positivity of the half sizes for a box with positive sizes. -/
lemma boxHalfSize_pos (sizeX sizeY sizeZ : ℝ) (hx : 0 < sizeX) (hy : 0 < sizeY)
    (hz : 0 < sizeZ) (i : Fin 3) : 0 < boxHalfSize sizeX sizeY sizeZ i := by
  fin_cases i <;> simp [boxHalfSize, vec3] <;> linarith

/-- Value of the box-local contact computation when the sphere center sits
exactly at the box center: the inside-the-box branch fires, the closest face
is the one selected by indexOfMinimum over the three half sizes, the direction
is +1, and the distance is minus that half size. -/
lemma localContact_center (sizeX sizeY sizeZ radius : ℝ) (hx : 0 < sizeX)
    (hy : 0 < sizeY) (hz : 0 < sizeZ) :
    BoxSphereDcdContact.localContact (fun _ => 0) sizeX sizeY sizeZ radius =
      some (-(boxHalfSize sizeX sizeY sizeZ
          (indexOfMinimum (boxHalfSize sizeX sizeY sizeZ 0)
            (boxHalfSize sizeX sizeY sizeZ 1) (boxHalfSize sizeX sizeY sizeZ 2))),
        (fun i => if i = indexOfMinimum (boxHalfSize sizeX sizeY sizeZ 0)
            (boxHalfSize sizeX sizeY sizeZ 1) (boxHalfSize sizeX sizeY sizeZ 2)
            then 1 else 0),
        Function.update (fun _ => (0:ℝ))
          (indexOfMinimum (boxHalfSize sizeX sizeY sizeZ 0)
            (boxHalfSize sizeX sizeY sizeZ 1) (boxHalfSize sizeX sizeY sizeZ 2))
          (boxHalfSize sizeX sizeY sizeZ
            (indexOfMinimum (boxHalfSize sizeX sizeY sizeZ 0)
              (boxHalfSize sizeX sizeY sizeZ 1) (boxHalfSize sizeX sizeY sizeZ 2)) * 1)) := by
  have hb := boxHalfSize_pos sizeX sizeY sizeZ hx hy hz
  have hcp : boxClosestPoint (boxHalfSize sizeX sizeY sizeZ) (fun _ => 0) =
      fun _ => (0:ℝ) := by
    funext i
    show max (-(boxHalfSize sizeX sizeY sizeZ i))
      (min (boxHalfSize sizeX sizeY sizeZ i) 0) = 0
    rw [min_eq_right (le_of_lt (hb i))]
    exact max_eq_right (by linarith [hb i])
  have hn0 : boxNormal0 (boxHalfSize sizeX sizeY sizeZ) (fun _ => 0) =
      fun _ => (0:ℝ) := by
    unfold boxNormal0
    rw [hcp]
    funext i
    show (0:ℝ) - 0 = 0
    ring
  have hdsq : boxDistanceSquared (boxHalfSize sizeX sizeY sizeZ) (fun _ => 0) = 0 := by
    unfold boxDistanceSquared
    rw [hn0]
    show (0:ℝ) * 0 + 0 * 0 + 0 * 0 = 0
    ring
  have hSq : (0:ℝ) < SquaredDistanceEpsilon := by norm_num [SquaredDistanceEpsilon]
  have hD : (0:ℝ) < DistanceEpsilon := by norm_num [DistanceEpsilon]
  simp only [BoxSphereDcdContact.localContact, hdsq, hcp]
  rw [if_neg (by nlinarith), if_pos (le_of_lt hSq)]
  have hdf : vec3 (boxHalfSize sizeX sizeY sizeZ 0 - |(fun (_ : Fin 3) => (0:ℝ)) 0|)
      (boxHalfSize sizeX sizeY sizeZ 1 - |(fun (_ : Fin 3) => (0:ℝ)) 1|)
      (boxHalfSize sizeX sizeY sizeZ 2 - |(fun (_ : Fin 3) => (0:ℝ)) 2|) =
      boxHalfSize sizeX sizeY sizeZ := by
    simp only [abs_zero, sub_zero]
    exact vec3_eta _
  rw [hdf]
  rw [if_pos (show -DistanceEpsilon < (0:ℝ) by linarith)]
  rw [show |boxHalfSize sizeX sizeY sizeZ (indexOfMinimum (boxHalfSize sizeX sizeY sizeZ 0)
      (boxHalfSize sizeX sizeY sizeZ 1) (boxHalfSize sizeX sizeY sizeZ 2))| =
    boxHalfSize sizeX sizeY sizeZ (indexOfMinimum (boxHalfSize sizeX sizeY sizeZ 0)
      (boxHalfSize sizeX sizeY sizeZ 1) (boxHalfSize sizeX sizeY sizeZ 2))
    from abs_of_pos (hb _)]

/-- Value at a node of the boundary-condition zeroing fold: once the node is in
the list (or already zero), the result at that node is zero. -/
lemma zeroBoundaryNodes_eq_zero {n : ℕ} (bcs : List (Fin n)) (w : Fin n → Q3)
    (bc : Fin n) (h : bc ∈ bcs ∨ w bc = fun _ => 0) :
    zeroBoundaryNodes bcs w bc = fun _ => 0 := by
  induction bcs generalizing w with
  | nil =>
    rcases h with h | h
    · cases h
    · exact h
  | cons head tail ih =>
    show zeroBoundaryNodes tail (Function.update w head fun _ => 0) bc = fun _ => 0
    apply ih
    rcases h with h | h
    · rcases List.mem_cons.mp h with h | h
      · right; rw [h, Function.update_same]
      · left; exact h
    · by_cases hb : bc = head
      · right; rw [hb, Function.update_same]
      · right; rw [Function.update_noteq hb, h]

/-- One integration step (either scheme) leaves the position of a boundary
condition node unchanged and its velocity zero. -/
lemma updateEulerExplicit_bc {n : ℕ} (m : MassSpringModel n) (dt : ℚ)
    (useModifiedEuler : Bool) (x v : Fin n → Q3) (bc : Fin n)
    (hbc : bc ∈ m.boundaryConditions) :
    (updateEulerExplicit m dt useModifiedEuler x v).2.1 bc = (fun _ => 0) ∧
    (updateEulerExplicit m dt useModifiedEuler x v).1 bc = x bc := by
  cases useModifiedEuler with
  | true =>
    have hv2 : zeroBoundaryNodes m.boundaryConditions
        (fun i k => v i k + (accumulateForces m x v i k / m.mass i) * dt) bc =
        fun _ => 0 :=
      zeroBoundaryNodes_eq_zero _ _ _ (Or.inl hbc)
    refine ⟨hv2, funext fun k => ?_⟩
    show x bc k + zeroBoundaryNodes m.boundaryConditions
        (fun i k => v i k + (accumulateForces m x v i k / m.mass i) * dt) bc k * dt = x bc k
    rw [hv2]
    ring
  | false =>
    have hv1 : zeroBoundaryNodes m.boundaryConditions v bc = fun _ => 0 :=
      zeroBoundaryNodes_eq_zero _ _ _ (Or.inl hbc)
    have ha1 : zeroBoundaryNodes m.boundaryConditions
        (fun i k => accumulateForces m x v i k / m.mass i) bc = fun _ => 0 :=
      zeroBoundaryNodes_eq_zero _ _ _ (Or.inl hbc)
    constructor
    · funext k
      show zeroBoundaryNodes m.boundaryConditions v bc k +
          zeroBoundaryNodes m.boundaryConditions
            (fun i k => accumulateForces m x v i k / m.mass i) bc k * dt = 0
      rw [hv1, ha1]
      ring
    · funext k
      show x bc k + zeroBoundaryNodes m.boundaryConditions v bc k * dt = x bc k
      rw [hv1]
      ring

/-! ## Theorems for claims C4, C5, C9 -/

/-- C4: adding an implementation through
ConstraintImplementationFactory::addImplementation makes a subsequent
getImplementation with the same (representationType, constraintType) pair
return that same instance with no warning; for every in-range pair with no
registered implementation, getImplementation returns none (nullptr) and logs
the warning.  The embedding is total on in-range indices, so no exception is
possible. -/
theorem constraintFactory_roundTrip_spec {R C : ℕ}
    (fac : ConstraintImplementationFactory R C) (impl : ConstraintImplementation R C)
    (r : Fin R) (c : Fin C) :
    (fac.addImplementation impl).getImplementation
        impl.representationType impl.mlcpConstraintType = (some impl, false) ∧
    (fac.implementations r c = none → fac.getImplementation r c = (none, true)) := by
  constructor
  · simp [ConstraintImplementationFactory.getImplementation,
      ConstraintImplementationFactory.addImplementation]
  · intro h
    simp [ConstraintImplementationFactory.getImplementation, h]

/-- Witness for C4 at a concrete 2×2 factory that starts empty. -/
theorem constraintFactory_roundTrip_spec_witness :
    ((ConstraintImplementationFactory.mk (fun _ _ => none)).addImplementation
        (ConstraintImplementation.mk 7 (0 : Fin 2) (1 : Fin 2))).getImplementation
        (0 : Fin 2) (1 : Fin 2) =
      (some (ConstraintImplementation.mk 7 (0 : Fin 2) (1 : Fin 2)), false) ∧
    ((ConstraintImplementationFactory.mk
        (fun (_ : Fin 2) (_ : Fin 2) => (none : Option (ConstraintImplementation 2 2)))).implementations
        1 0 = none →
      (ConstraintImplementationFactory.mk
        (fun (_ : Fin 2) (_ : Fin 2) => (none : Option (ConstraintImplementation 2 2)))).getImplementation
        1 0 = (none, true)) :=
  constraintFactory_roundTrip_spec
    (ConstraintImplementationFactory.mk (fun _ _ => none))
    (ConstraintImplementation.mk 7 (0 : Fin 2) (1 : Fin 2)) 1 0

/-- C5: when the solved Lagrange multiplier vector x is empty,
PushResults::doUpdate returns the state unchanged — no dofCorrection is
computed and applyDofCorrection is invoked on no representation, so the dof state of every
representation still equals its free-motion state. -/
theorem pushResults_emptyX_noop_spec (dt : ℚ) (state : PhysicsManagerState)
    (h : state.solutionX = []) :
    PushResults.doUpdate dt state = state := by
  simp [PushResults.doUpdate, h]

/-- Witness for C5: a concrete state with one representation and an empty
solution vector is returned unchanged. -/
theorem pushResults_emptyX_noop_spec_witness :
    (PhysicsManagerState.mk [] [3] [[2]]
        [PhysRep.mk 0 1 [5] (fun _ b d => d ++ b)]).solutionX = [] ∧
    PushResults.doUpdate 1
        (PhysicsManagerState.mk [] [3] [[2]]
          [PhysRep.mk 0 1 [5] (fun _ b d => d ++ b)]) =
      PhysicsManagerState.mk [] [3] [[2]]
        [PhysRep.mk 0 1 [5] (fun _ b d => d ++ b)] :=
  ⟨rfl, pushResults_emptyX_noop_spec 1 _ rfl⟩

/-- C9 counterexample: the original claim quantifies over every pair whose
(first, second) shape types do not match the declared (typeA, typeB) ordering
and asserts that such a pair is swapped, so that doCalculateContact always
receives the declared order.  For a calculator declaring types (1, 2) and a
pair whose two shape types are (2, 2), the ordering does not match, yet
needsSwap is false: the pair is delegated unswapped and doCalculateContact
receives shape types (2, 2), not the declared (1, 2). -/
theorem calculateContact_no_swap_mismatched_cex :
    ((ContactCalculation.delegatedPair (1, 2)
        (CollisionPairR.mk (CollisionRep.mk 10 2) (CollisionRep.mk 20 2))) =
      CollisionPairR.mk (CollisionRep.mk 10 2) (CollisionRep.mk 20 2)) ∧
    (((2 : ℤ), (2 : ℤ)) ≠ ((1 : ℤ), (2 : ℤ))) ∧
    (ContactCalculation.delegatedPair (1, 2)
        (CollisionPairR.mk (CollisionRep.mk 10 2) (CollisionRep.mk 20 2))).first.shapeType ≠ 1 := by
  refine ⟨?_, by decide, by decide⟩
  decide

/-- C9 amended: for every pair whose shape types are the declared
types of the calculator — in declared order or reversed — calculateContact delegates the pair to
doCalculateContact in the declared order: the reversed pair (with distinct
types) is swapped, the matching pair is passed through; a pair whose types
match neither ordering is delegated unswapped. -/
theorem calculateContact_swap_amended (shapeTypes : ℤ × ℤ) (pair : CollisionPairR)
    (h : (pair.first.shapeType = shapeTypes.1 ∧ pair.second.shapeType = shapeTypes.2) ∨
         (pair.first.shapeType = shapeTypes.2 ∧ pair.second.shapeType = shapeTypes.1)) :
    (ContactCalculation.delegatedPair shapeTypes pair).first.shapeType = shapeTypes.1 ∧
    (ContactCalculation.delegatedPair shapeTypes pair).second.shapeType = shapeTypes.2 := by
  rcases h with ⟨h1, h2⟩ | ⟨h1, h2⟩
  · have hns : ContactCalculation.needsSwap shapeTypes
        pair.first.shapeType pair.second.shapeType = false := by
      by_cases heq : pair.first.shapeType = pair.second.shapeType
      · simp [ContactCalculation.needsSwap, heq]
      · have hx : pair.first.shapeType ≠ shapeTypes.2 := by
          rw [h1]; rw [h1] at heq; rw [h2] at heq; exact heq
        simp [ContactCalculation.needsSwap, hx]
    have hd : ContactCalculation.delegatedPair shapeTypes pair = pair := by
      simp [ContactCalculation.delegatedPair, hns]
    rw [hd]; exact ⟨h1, h2⟩
  · by_cases heq : pair.first.shapeType = pair.second.shapeType
    · have hns : ContactCalculation.needsSwap shapeTypes
          pair.first.shapeType pair.second.shapeType = false := by
        simp [ContactCalculation.needsSwap, heq]
      have hd : ContactCalculation.delegatedPair shapeTypes pair = pair := by
        simp [ContactCalculation.delegatedPair, hns]
      have h1' : pair.first.shapeType = shapeTypes.1 := by rw [heq, h2]
      have h2' : pair.second.shapeType = shapeTypes.2 := by rw [← heq, h1]
      rw [hd]; exact ⟨h1', h2'⟩
    · have hne : shapeTypes.2 ≠ shapeTypes.1 := by
        rw [← h1, ← h2]; exact heq
      have hns : ContactCalculation.needsSwap shapeTypes
          pair.first.shapeType pair.second.shapeType = true := by
        simp [ContactCalculation.needsSwap, h1, h2, hne]
      have hd : ContactCalculation.delegatedPair shapeTypes pair =
          pair.swapRepresentations := by
        simp [ContactCalculation.delegatedPair, hns]
      rw [hd]; exact ⟨h2, h1⟩

/-- Witness for C9 amended: a reversed pair for a calculator declaring (1, 2)
is swapped into declared order. -/
theorem calculateContact_swap_amended_witness :
    (((CollisionPairR.mk (CollisionRep.mk 10 2) (CollisionRep.mk 20 1)).first.shapeType =
          ((1 : ℤ), (2 : ℤ)).1 ∧
        (CollisionPairR.mk (CollisionRep.mk 10 2) (CollisionRep.mk 20 1)).second.shapeType =
          ((1 : ℤ), (2 : ℤ)).2) ∨
      ((CollisionPairR.mk (CollisionRep.mk 10 2) (CollisionRep.mk 20 1)).first.shapeType =
          ((1 : ℤ), (2 : ℤ)).2 ∧
        (CollisionPairR.mk (CollisionRep.mk 10 2) (CollisionRep.mk 20 1)).second.shapeType =
          ((1 : ℤ), (2 : ℤ)).1)) ∧
    (ContactCalculation.delegatedPair ((1 : ℤ), (2 : ℤ))
        (CollisionPairR.mk (CollisionRep.mk 10 2) (CollisionRep.mk 20 1))).first.shapeType =
      ((1 : ℤ), (2 : ℤ)).1 ∧
    (ContactCalculation.delegatedPair ((1 : ℤ), (2 : ℤ))
        (CollisionPairR.mk (CollisionRep.mk 10 2) (CollisionRep.mk 20 1))).second.shapeType =
      ((1 : ℤ), (2 : ℤ)).2 :=
  ⟨Or.inr (by decide),
    calculateContact_swap_amended ((1 : ℤ), (2 : ℤ))
      (CollisionPairR.mk (CollisionRep.mk 10 2) (CollisionRep.mk 20 1))
      (Or.inr (by decide))⟩

/-- C8 counterexample: the claim states that every boundary condition node has
its force and velocity components zeroed during each integration step.  In
the modified-Euler branch the force vector is never zeroed at boundary
condition nodes: for the one-node model with gravity, node 0 is a boundary
condition, yet after one modified-Euler step the stored force/acceleration
vector at node 0 has a nonzero y component; moreover the velocity of the node is
forced to 0, so a nonzero initial velocity does not remain at its initial
value. -/
theorem massSpring_bc_force_not_zeroed_cex :
    ((0 : Fin 1) ∈ msCexModel.boundaryConditions) ∧
    (updateEulerExplicit msCexModel 1 true (fun _ _ => 0) (fun _ _ => 1)).2.2 0 1 ≠ 0 ∧
    (updateEulerExplicit msCexModel 1 true (fun _ _ => 0) (fun _ _ => 1)).2.1 0 1 ≠ 1 := by
  refine ⟨by decide, ?_, ?_⟩ <;>
    simp [updateEulerExplicit, accumulateForces, addRayleighDampingForce, msCexModel,
      zeroBoundaryNodes]

/-- C8 amended: in the explicit branch both the force and the velocity
components of boundary condition nodes are zeroed; in the modified-Euler
branch only the velocity is zeroed (after the velocity update and before the
position update).  In both branches, a boundary condition node whose initial
velocity is zero keeps velocity exactly zero and position exactly at its
initial value after any sequence of integration and correction steps,
regardless of gravity, damping and spring forces. -/
theorem massSpring_bc_nodes_fixed_amended {n : ℕ} (m : MassSpringModel n)
    (steps : List MassSpringStep) (x0 v0 : Fin n → Q3) (bc : Fin n)
    (hbc : bc ∈ m.boundaryConditions) (hv : v0 bc = fun _ => 0) :
    (runMassSpringSteps m steps (x0, v0)).2 bc = (fun _ => 0) ∧
    (runMassSpringSteps m steps (x0, v0)).1 bc = x0 bc := by
  induction steps generalizing x0 v0 with
  | nil => exact ⟨hv, rfl⟩
  | cons st tail ih =>
    cases st with
    | integrate dt useModified =>
      have hstep := updateEulerExplicit_bc m dt useModified x0 v0 bc hbc
      have hrun : runMassSpringSteps m (MassSpringStep.integrate dt useModified :: tail)
          (x0, v0) =
          runMassSpringSteps m tail
            ((updateEulerExplicit m dt useModified x0 v0).1,
             (updateEulerExplicit m dt useModified x0 v0).2.1) := rfl
      rw [hrun]
      have hres := ih (updateEulerExplicit m dt useModified x0 v0).1
        (updateEulerExplicit m dt useModified x0 v0).2.1 hstep.1
      exact ⟨hres.1, hstep.2 ▸ hres.2⟩
    | correct isActive dt block =>
      have hrun : runMassSpringSteps m (MassSpringStep.correct isActive dt block :: tail)
          (x0, v0) = runMassSpringSteps m tail (x0, v0) := by
        show runMassSpringSteps m tail
            (MassSpringRepresentation.applyDofCorrection isActive dt block x0 v0) =
          runMassSpringSteps m tail (x0, v0)
        cases isActive <;> rfl
      rw [hrun]
      exact ih x0 v0 hv

/-- Witness for C8 amended: a fixed node of the one-node model stays at its
initial position with zero velocity across a modified-Euler step, a
correction, and an explicit step. -/
theorem massSpring_bc_nodes_fixed_amended_witness :
    ((0 : Fin 1) ∈ msCexModel.boundaryConditions ∧
      (fun (_ : Fin 1) (_ : Fin 3) => (0 : ℚ)) 0 = (fun _ => 0)) ∧
    (runMassSpringSteps msCexModel
        [MassSpringStep.integrate 1 true, MassSpringStep.correct true 1 [],
         MassSpringStep.integrate (1/2) false]
        ((fun _ _ => 5), (fun _ _ => 0))).2 0 = (fun _ => 0) ∧
    (runMassSpringSteps msCexModel
        [MassSpringStep.integrate 1 true, MassSpringStep.correct true 1 [],
         MassSpringStep.integrate (1/2) false]
        ((fun _ _ => 5), (fun _ _ => 0))).1 0 = (fun (_ : Fin 1) (_ : Fin 3) => (5 : ℚ)) 0 :=
  ⟨⟨by decide, rfl⟩,
    (massSpring_bc_nodes_fixed_amended msCexModel
      [MassSpringStep.integrate 1 true, MassSpringStep.correct true 1 [],
       MassSpringStep.integrate (1/2) false]
      (fun _ _ => 5) (fun _ _ => 0) 0 (by decide) rfl).1,
    (massSpring_bc_nodes_fixed_amended msCexModel
      [MassSpringStep.integrate 1 true, MassSpringStep.correct true 1 [],
       MassSpringStep.integrate (1/2) false]
      (fun _ _ => 5) (fun _ _ => 0) 0 (by decide) rfl).2⟩

/-- C10: MassSpringRepresentation::applyDofCorrection is a no-op for every
input — for every dt, every correction block, and whether the representation
is active or not, the positions and velocities are returned unchanged, so
constraint-solver corrections are discarded for mass-spring representations. -/
theorem massSpring_applyDofCorrection_noop_spec {n : ℕ} (isActive : Bool)
    (dt : ℚ) (block : List ℚ) (x v : Fin n → Q3) :
    MassSpringRepresentation.applyDofCorrection isActive dt block x v = (x, v) := by
  cases isActive <;> rfl

/-- C6: each ModifiedExplicitEuler::solve step first forms the new velocity
from the current acceleration (v + dt * a where a is the acceleration computed
from the current state and stored in the new state) and then advances the
position with that new velocity; consequently, when computeF is identically
zero and the linear solver is exact (it solves the system and the system
matrix is injective), every step leaves the velocities unchanged and advances
each position by dt times its velocity, for any number of consecutive steps. -/
theorem modifiedEulerExplicit_zeroForce_spec {n : ℕ} (eq : OdeEquationQ n)
    (sa : SolveAndInverse n) (dt : ℚ) (hdt : dt ≠ 0)
    (hsa : ∀ s f, ((1 / dt) • eq.computeM s).mulVec
        (sa ((1 / dt) • eq.computeM s) f).1 = f)
    (hM : ∀ s, Function.Injective fun w => ((1 / dt) • eq.computeM s).mulVec w) :
    (∀ s, (odeStep eq sa dt s).velocities =
        fun i => s.velocities i + dt * (odeStep eq sa dt s).accelerations i) ∧
    (∀ s, (odeStep eq sa dt s).positions =
        fun i => s.positions i + dt * (odeStep eq sa dt s).velocities i) ∧
    ((∀ s, eq.computeF s = fun _ => 0) →
      ∀ (s0 : OdeStateQ n) (k : ℕ),
        ((odeStep eq sa dt)^[k] s0).velocities = s0.velocities ∧
        ((odeStep eq sa dt)^[k] s0).positions =
          fun i => s0.positions i + (k : ℚ) * (dt * s0.velocities i)) := by
  have hzero : ∀ s, eq.computeF s = (fun _ => 0) →
      (sa ((1 / dt) • eq.computeM s) (eq.computeF s)).1 = fun _ => 0 := by
    intro s hF
    apply hM s
    show ((1 / dt) • eq.computeM s).mulVec _ = ((1 / dt) • eq.computeM s).mulVec _
    rw [hsa s (eq.computeF s)]
    have hz : ((1 / dt) • eq.computeM s).mulVec (fun _ => 0) = fun _ => 0 := by
      have h0 : (fun _ => (0 : ℚ)) = (0 : Fin n → ℚ) := rfl
      rw [h0, Matrix.mulVec_zero]
    rw [hz, hF]
  refine ⟨?_, ?_, ?_⟩
  · intro s
    funext i
    show s.velocities i + (sa ((1 / dt) • eq.computeM s) (eq.computeF s)).1 i =
      s.velocities i + dt * ((sa ((1 / dt) • eq.computeM s) (eq.computeF s)).1 i / dt)
    field_simp
  · intro s
    rfl
  · intro hF s0 k
    induction k with
    | zero => exact ⟨rfl, by funext i; simp⟩
    | succ k ih =>
      rw [Function.iterate_succ_apply']
      have hd := hzero ((odeStep eq sa dt)^[k] s0) (hF _)
      constructor
      · funext i
        show ((odeStep eq sa dt)^[k] s0).velocities i +
            (sa ((1 / dt) • eq.computeM _) (eq.computeF _)).1 i = s0.velocities i
        rw [hd, ih.1]
        simp
      · funext i
        show ((odeStep eq sa dt)^[k] s0).positions i +
            dt * (((odeStep eq sa dt)^[k] s0).velocities i +
              (sa ((1 / dt) • eq.computeM _) (eq.computeF _)).1 i) =
          s0.positions i + ((k + 1 : ℕ) : ℚ) * (dt * s0.velocities i)
        rw [hd, ih.1, ih.2]
        push_cast
        ring

/-- Witness for C6 at the one-dof zero-force system with dt = 1 and the
diagonal solver. -/
theorem modifiedEulerExplicit_zeroForce_spec_witness :
    ((1 : ℚ) ≠ 0) ∧
    (∀ s f, ((1 / (1 : ℚ)) • odeEqZero.computeM s).mulVec
        (saDiag ((1 / (1 : ℚ)) • odeEqZero.computeM s) f).1 = f) ∧
    (∀ s, Function.Injective fun w => ((1 / (1 : ℚ)) • odeEqZero.computeM s).mulVec w) ∧
    ((∀ s, (odeStep odeEqZero saDiag 1 s).velocities =
        fun i => s.velocities i + 1 * (odeStep odeEqZero saDiag 1 s).accelerations i) ∧
    (∀ s, (odeStep odeEqZero saDiag 1 s).positions =
        fun i => s.positions i + 1 * (odeStep odeEqZero saDiag 1 s).velocities i) ∧
    ((∀ s, odeEqZero.computeF s = fun _ => 0) →
      ∀ (s0 : OdeStateQ 1) (k : ℕ),
        ((odeStep odeEqZero saDiag 1)^[k] s0).velocities = s0.velocities ∧
        ((odeStep odeEqZero saDiag 1)^[k] s0).positions =
          fun i => s0.positions i + (k : ℚ) * (1 * s0.velocities i))) := by
  have hone : ((1 : ℚ) / 1) • odeEqZero.computeM = fun _ => (1 : Matrix (Fin 1) (Fin 1) ℚ) := by
    funext s
    simp [odeEqZero]
  have hsa : ∀ s f, ((1 / (1 : ℚ)) • odeEqZero.computeM s).mulVec
      (saDiag ((1 / (1 : ℚ)) • odeEqZero.computeM s) f).1 = f := by
    intro s f
    funext i
    rw [Fin.eq_zero i]
    simp [odeEqZero, saDiag, Matrix.mulVec, Matrix.dotProduct, Fin.sum_univ_one,
      Matrix.one_apply, Matrix.smul_apply]
  have hM : ∀ s, Function.Injective fun w => ((1 / (1 : ℚ)) • odeEqZero.computeM s).mulVec w := by
    intro s a b hab
    have h1 : ((1 / (1 : ℚ)) • odeEqZero.computeM s) = 1 := by
      simp [odeEqZero]
    rw [h1] at hab
    simpa [Matrix.one_mulVec] using hab
  exact ⟨one_ne_zero, hsa, hM,
    modifiedEulerExplicit_zeroForce_spec odeEqZero saDiag 1 one_ne_zero hsa hM⟩

/-- C7: the claim that every later LinearModifiedExplicitEuler::solve call
yields the same velocities, positions AND accelerations as
ModifiedExplicitEuler::solve fails on the accelerations.  On the constant
one-dof system M = 1, f = 1 with dt = 1/2, the second linear call (reusing the
newState buffer that holds the acceleration 1 of the first step) produces the same
velocities and positions as the full solver, but acceleration 2 instead of 1:
the else branch never stores deltaV into the accelerations and divides the stale
value in the buffer by dt, although its own final line only makes sense if
the accelerations held deltaV, as in the parent solver. -/
theorem linearModifiedEuler_acceleration_bug :
    (LinearModifiedExplicitEuler.solve odeEqC7 saDiag (1/2)
        c7lin1.2 c7lin1.1 c7lin1.1).1.velocities 0 =
      (odeStep odeEqC7 saDiag (1/2) c7lin1.1).velocities 0 ∧
    (LinearModifiedExplicitEuler.solve odeEqC7 saDiag (1/2)
        c7lin1.2 c7lin1.1 c7lin1.1).1.positions 0 =
      (odeStep odeEqC7 saDiag (1/2) c7lin1.1).positions 0 ∧
    (LinearModifiedExplicitEuler.solve odeEqC7 saDiag (1/2)
        c7lin1.2 c7lin1.1 c7lin1.1).1.accelerations 0 = 2 ∧
    (odeStep odeEqC7 saDiag (1/2) c7lin1.1).accelerations 0 = 1 := by
  refine ⟨?_, ?_, ?_, ?_⟩ <;>
    simp [c7lin1, LinearModifiedExplicitEuler.solve, ModifiedExplicitEuler.solve,
      odeStep, odeEqC7, saDiag, c7s0, Matrix.mulVec, Matrix.dotProduct,
      Fin.sum_univ_one, Matrix.smul_apply, Matrix.one_apply]

/-- C1: a sphere-sphere pair produces exactly one contact iff the center
distance is below the radius sum; the contact depth is (radius sum) minus
(center distance), its normal is the unit vector from the second center
toward the first (well defined when the centers differ), and its penetration
points lie on the two sphere surfaces along that normal.  In particular, for
two unit spheres with centers (0,0,0) and (1.5,0,0): depth 0.5, normal
(-1,0,0) for that order and (1,0,0) for the swapped order, with penetration
points (1,0,0) and (0.5,0,0) respectively. -/
theorem sphereSphere_doCalculateContact_spec :
    (∀ (c1 c2 : V3) (r1 r2 : ℝ),
      ((SphereSphereDcdContact.doCalculateContact c1 c2 r1 r2).isSome = true ↔
        normV (c1 - c2) < r1 + r2) ∧
      (∀ ct, SphereSphereDcdContact.doCalculateContact c1 c2 r1 r2 = some ct →
        ct.depth = (r1 + r2) - normV (c1 - c2) ∧
        (normV (c1 - c2) ≠ 0 →
          ct.normal = (1 / normV (c1 - c2)) • (c1 - c2) ∧
          normV ct.normal = 1 ∧
          ct.penetrationFirst = c1 - r1 • ct.normal ∧
          ct.penetrationSecond = c2 + r2 • ct.normal ∧
          (0 ≤ r1 → normV (ct.penetrationFirst - c1) = r1) ∧
          (0 ≤ r2 → normV (ct.penetrationSecond - c2) = r2)))) ∧
    SphereSphereDcdContact.doCalculateContact (vec3 0 0 0) (vec3 (3/2) 0 0) 1 1 =
      some (Contact.mk (1/2) (vec3 (-1) 0 0) (vec3 1 0 0) (vec3 (1/2) 0 0)) ∧
    SphereSphereDcdContact.doCalculateContact (vec3 (3/2) 0 0) (vec3 0 0 0) 1 1 =
      some (Contact.mk (1/2) (vec3 1 0 0) (vec3 (1/2) 0 0) (vec3 1 0 0)) := by
  refine ⟨?_, ?_, ?_⟩
  · intro c1 c2 r1 r2
    have hmain : SphereSphereDcdContact.doCalculateContact c1 c2 r1 r2 =
        if normV (c1 - c2) < r1 + r2 then
          some (Contact.mk ((r1 + r2) - normV (c1 - c2))
            ((1 / normV (c1 - c2)) • (c1 - c2))
            (c1 - r1 • ((1 / normV (c1 - c2)) • (c1 - c2)))
            (c2 + r2 • ((1 / normV (c1 - c2)) • (c1 - c2))))
        else none := rfl
    by_cases h : normV (c1 - c2) < r1 + r2
    · rw [hmain, if_pos h]
      refine ⟨by simp [h], ?_⟩
      intro ct hct
      obtain rfl : ct = Contact.mk ((r1 + r2) - normV (c1 - c2))
            ((1 / normV (c1 - c2)) • (c1 - c2))
            (c1 - r1 • ((1 / normV (c1 - c2)) • (c1 - c2)))
            (c2 + r2 • ((1 / normV (c1 - c2)) • (c1 - c2))) :=
        (Option.some.injEq _ _ ▸ hct).symm
      refine ⟨rfl, ?_⟩
      intro hne
      have hunit : normV ((1 / normV (c1 - c2)) • (c1 - c2)) = 1 := normV_normalize _ hne
      refine ⟨rfl, hunit, rfl, rfl, ?_, ?_⟩
      · intro hr1
        have hv : c1 - r1 • ((1 / normV (c1 - c2)) • (c1 - c2)) - c1 =
            (-r1) • ((1 / normV (c1 - c2)) • (c1 - c2)) := by
          funext i
          simp [Pi.sub_apply, Pi.smul_apply, smul_eq_mul]
        rw [hv, normV_smul, hunit, abs_neg, abs_of_nonneg hr1, mul_one]
      · intro hr2
        have hv : c2 + r2 • ((1 / normV (c1 - c2)) • (c1 - c2)) - c2 =
            r2 • ((1 / normV (c1 - c2)) • (c1 - c2)) := by
          funext i
          simp [Pi.sub_apply, Pi.smul_apply, smul_eq_mul]
        rw [hv, normV_smul, hunit, abs_of_nonneg hr2, mul_one]
    · rw [hmain, if_neg h]
      exact ⟨by simp [h], fun ct hct => absurd hct (by simp)⟩
  · have hd : vec3 (0:ℝ) 0 0 - vec3 (3/2) 0 0 = vec3 (-(3/2)) 0 0 := by
      rw [vec3_sub]; norm_num
    have hn : normV (vec3 (-(3/2) : ℝ) 0 0) = 3/2 := by
      rw [normV_vec3_x]; norm_num
    simp only [SphereSphereDcdContact.doCalculateContact]
    rw [hd, hn, if_pos (by norm_num : (3/2:ℝ) < 1 + 1)]
    have hnormal : (1 / (3/2) : ℝ) • vec3 (-(3/2) : ℝ) 0 0 = vec3 (-1) 0 0 := by
      rw [vec3_smul]; norm_num
    rw [hnormal, one_smul, vec3_sub, vec3_add]
    norm_num [Option.some.injEq, Contact.mk.injEq]
  · have hd : vec3 ((3:ℝ)/2) 0 0 - vec3 0 0 0 = vec3 (3/2) 0 0 := by
      rw [vec3_sub]; norm_num
    have hn : normV (vec3 ((3:ℝ)/2) 0 0) = 3/2 := by
      rw [normV_vec3_x]; norm_num
    simp only [SphereSphereDcdContact.doCalculateContact]
    rw [hd, hn, if_pos (by norm_num : (3/2:ℝ) < 1 + 1)]
    have hnormal : (1 / (3/2) : ℝ) • vec3 ((3:ℝ)/2) 0 0 = vec3 1 0 0 := by
      rw [vec3_smul]; norm_num
    rw [hnormal, one_smul, vec3_sub, vec3_add]
    norm_num [Option.some.injEq, Contact.mk.injEq]

/-- Witness for C1: the general part applied to the two unit spheres at
(0,0,0) and (1.5,0,0), with the nonzero-distance and nonnegative-radius
hypotheses discharged by evaluation. -/
theorem sphereSphere_doCalculateContact_spec_witness :
    (normV (vec3 (0:ℝ) 0 0 - vec3 (3/2) 0 0) ≠ 0) ∧ ((0:ℝ) ≤ 1) ∧
    (∀ ct, SphereSphereDcdContact.doCalculateContact (vec3 0 0 0) (vec3 (3/2) 0 0) 1 1 =
        some ct →
      ct.depth = (1 + 1) - normV (vec3 (0:ℝ) 0 0 - vec3 (3/2) 0 0) ∧
      normV ct.normal = 1 ∧ normV (ct.penetrationFirst - vec3 0 0 0) = 1) := by
  have hne : normV (vec3 (0:ℝ) 0 0 - vec3 (3/2) 0 0) ≠ 0 := by
    rw [show vec3 (0:ℝ) 0 0 - vec3 (3/2) 0 0 = vec3 (-(3/2)) 0 0 by rw [vec3_sub]; norm_num,
      normV_vec3_x]
    norm_num
  refine ⟨hne, by norm_num, ?_⟩
  intro ct hct
  have h := (sphereSphere_doCalculateContact_spec.1 (vec3 0 0 0) (vec3 (3/2) 0 0) 1 1).2 ct hct
  exact ⟨h.1, (h.2 hne).2.1, (h.2 hne).2.2.2.2.1 (by norm_num)⟩

/-- C3 counterexample: the claim asserts that for every input to the
narrow-phase calculators the near-zero-separation case is epsilon-guarded so
that a zero-length vector is never normalized.  SphereSphereDcdContact has no
such guard: for two unit spheres with coincident centers the overlap branch is
taken (distance 0 < radius sum 2) and the code normalizes the zero-length
center difference — in C++ a division 0/0 producing NaN; in this real-number
model the resulting contact normal is the zero vector, with norm 0 instead
of 1. -/
theorem sphereSphere_zeroVector_normalized_cex :
    normV (vec3 (0:ℝ) 0 0 - vec3 0 0 0) = 0 ∧
    normV (vec3 (0:ℝ) 0 0 - vec3 0 0 0) < 1 + 1 ∧
    (∃ ct, SphereSphereDcdContact.doCalculateContact (vec3 0 0 0) (vec3 0 0 0) 1 1 =
        some ct ∧ normV ct.normal = 0) := by
  have hd : vec3 (0:ℝ) 0 0 - vec3 0 0 0 = vec3 0 0 0 := by
    rw [vec3_sub]; norm_num
  have hn : normV (vec3 (0:ℝ) 0 0) = 0 := by
    rw [normV_vec3_x]; norm_num
  refine ⟨by rw [hd, hn], by rw [hd, hn]; norm_num, ?_⟩
  refine ⟨Contact.mk (1 + 1 - 0) ((1/0 : ℝ) • vec3 0 0 0)
      (vec3 0 0 0 - (1:ℝ) • ((1/0 : ℝ) • vec3 0 0 0))
      (vec3 0 0 0 + (1:ℝ) • ((1/0 : ℝ) • vec3 0 0 0)), ?_, ?_⟩
  · simp only [SphereSphereDcdContact.doCalculateContact]
    rw [hd, hn, if_pos (by norm_num : (0:ℝ) < 1 + 1)]
  · show normV ((1/0 : ℝ) • vec3 0 0 0) = 0
    rw [vec3_smul]
    rw [show ((1:ℝ)/0 * 0) = 0 by norm_num, normV_vec3_x]
    norm_num

/-- C2: for every box-sphere pair with positive sizes whose sphere center lies
exactly at the box center (world sphere center equal to the box pose
translation), the calculator produces a contact whose normal is the box axis
of the nearest face — the index of the minimum half size, ties resolved in
axis order (x, y, z) as the trailing tie-break instances show — mapped to
world coordinates, and whose depth is that half size plus the sphere
radius. -/
theorem boxSphere_centerAtBoxCenter_spec (boxPose : RigidTransform3)
    (sizeX sizeY sizeZ radius : ℝ)
    (hx : 0 < sizeX) (hy : 0 < sizeY) (hz : 0 < sizeZ) (hr : 0 < radius) :
    (∃ ct, BoxSphereDcdContact.doCalculateContact boxPose boxPose.translation
        sizeX sizeY sizeZ radius = some ct ∧
      ct.normal = boxPose.linear.mulVec (fun i =>
        if i = indexOfMinimum (boxHalfSize sizeX sizeY sizeZ 0)
            (boxHalfSize sizeX sizeY sizeZ 1) (boxHalfSize sizeX sizeY sizeZ 2)
        then 1 else 0) ∧
      ct.depth = boxHalfSize sizeX sizeY sizeZ
          (indexOfMinimum (boxHalfSize sizeX sizeY sizeZ 0)
            (boxHalfSize sizeX sizeY sizeZ 1) (boxHalfSize sizeX sizeY sizeZ 2)) + radius) ∧
    indexOfMinimum (1:ℝ) 1 2 = 0 ∧ indexOfMinimum (2:ℝ) 1 1 = 1 ∧
    indexOfMinimum (1:ℝ) 1 1 = 0 ∧ indexOfMinimum (2:ℝ) 3 1 = 2 := by
  have hb := boxHalfSize_pos sizeX sizeY sizeZ hx hy hz
  have happly : boxPose.applyInverse boxPose.translation = fun _ => 0 := by
    unfold RigidTransform3.applyInverse
    rw [sub_self, Matrix.mulVec_zero]
    rfl
  refine ⟨?_, by norm_num [indexOfMinimum], by norm_num [indexOfMinimum],
    by norm_num [indexOfMinimum], by norm_num [indexOfMinimum]⟩
  rw [BoxSphereDcdContact.doCalculateContact, happly,
    localContact_center sizeX sizeY sizeZ radius hx hy hz]
  refine ⟨_, rfl, rfl, ?_⟩
  show |(-(boxHalfSize sizeX sizeY sizeZ
      (indexOfMinimum (boxHalfSize sizeX sizeY sizeZ 0)
        (boxHalfSize sizeX sizeY sizeZ 1) (boxHalfSize sizeX sizeY sizeZ 2)))) - radius| =
    boxHalfSize sizeX sizeY sizeZ
      (indexOfMinimum (boxHalfSize sizeX sizeY sizeZ 0)
        (boxHalfSize sizeX sizeY sizeZ 1) (boxHalfSize sizeX sizeY sizeZ 2)) + radius
  rw [abs_of_nonpos (by nlinarith [hb (indexOfMinimum (boxHalfSize sizeX sizeY sizeZ 0)
    (boxHalfSize sizeX sizeY sizeZ 1) (boxHalfSize sizeX sizeY sizeZ 2))])]
  ring

/-- Witness for C2: identity box pose with sizes 2, 4, 6 and sphere radius 1;
the nearest face axis is x (half size 1) and the depth is 1 + 1. -/
theorem boxSphere_centerAtBoxCenter_spec_witness :
    ((0:ℝ) < 2 ∧ (0:ℝ) < 4 ∧ (0:ℝ) < 6 ∧ (0:ℝ) < 1) ∧
    (∃ ct, BoxSphereDcdContact.doCalculateContact
        (RigidTransform3.mk 1 (fun _ => 0))
        (RigidTransform3.mk 1 (fun (_ : Fin 3) => (0:ℝ))).translation 2 4 6 1 = some ct ∧
      ct.normal = (RigidTransform3.mk 1 (fun (_ : Fin 3) => (0:ℝ))).linear.mulVec (fun i =>
        if i = indexOfMinimum (boxHalfSize 2 4 6 0) (boxHalfSize 2 4 6 1)
            (boxHalfSize 2 4 6 2) then 1 else 0) ∧
      ct.depth = boxHalfSize 2 4 6
          (indexOfMinimum (boxHalfSize 2 4 6 0) (boxHalfSize 2 4 6 1)
            (boxHalfSize 2 4 6 2)) + 1) :=
  ⟨⟨by norm_num, by norm_num, by norm_num, by norm_num⟩,
    (boxSphere_centerAtBoxCenter_spec (RigidTransform3.mk 1 (fun _ => 0)) 2 4 6 1
      (by norm_num) (by norm_num) (by norm_num) (by norm_num)).1⟩

/-- C3 amended: the epsilon-guarded, deterministic handling of near-zero
separation holds for the box-sphere calculator — every produced box-local
normal has norm one, the inside-the-box case being handled by the closest-face
special case and the outside case dividing by a norm that the
SquaredDistanceEpsilon test keeps strictly positive — but the sphere-sphere
calculator has no epsilon guard: its normal is well defined (unit) exactly
when the two centers are distinct, and coincident centers normalize a
zero-length vector (the C3 counterexample). -/
theorem contact_normal_unit_amended :
    (∀ (center : V3) (sizeX sizeY sizeZ radius : ℝ) (d : ℝ) (nL cp : V3),
      BoxSphereDcdContact.localContact center sizeX sizeY sizeZ radius =
        some (d, nL, cp) → normV nL = 1) ∧
    (∀ (c1 c2 : V3) (r1 r2 : ℝ), normV (c1 - c2) ≠ 0 →
      ∀ ct, SphereSphereDcdContact.doCalculateContact c1 c2 r1 r2 = some ct →
        normV ct.normal = 1) := by
  constructor
  · intro center sX sY sZ r d nL cp h
    have hSq : (0:ℝ) < SquaredDistanceEpsilon := by norm_num [SquaredDistanceEpsilon]
    simp only [BoxSphereDcdContact.localContact] at h
    by_cases h1 : SquaredDistanceEpsilon <
        boxDistanceSquared (boxHalfSize sX sY sZ) center - r * r
    · rw [if_pos h1] at h
      exact absurd h (by simp)
    · rw [if_neg h1] at h
      by_cases h2 : boxDistanceSquared (boxHalfSize sX sY sZ) center ≤
          SquaredDistanceEpsilon
      · rw [if_pos h2] at h
        rw [Option.some.injEq, Prod.mk.injEq, Prod.mk.injEq] at h
        obtain ⟨-, hnL, -⟩ := h
        rw [← hnL, normV_axis]
        split_ifs <;> norm_num
      · rw [if_neg h2] at h
        rw [Option.some.injEq, Prod.mk.injEq, Prod.mk.injEq] at h
        obtain ⟨-, hnL, -⟩ := h
        have hpos : 0 < boxDistanceSquared (boxHalfSize sX sY sZ) center :=
          lt_trans hSq (not_le.mp h2)
        have hne : normV (boxNormal0 (boxHalfSize sX sY sZ) center) ≠ 0 := by

          have : 0 < normV (boxNormal0 (boxHalfSize sX sY sZ) center) :=
            Real.sqrt_pos.mpr hpos
          exact ne_of_gt this
        rw [← hnL]
        exact normV_normalize _ hne
  · intro c1 c2 r1 r2 hne ct hct
    have hmain : SphereSphereDcdContact.doCalculateContact c1 c2 r1 r2 =
        if normV (c1 - c2) < r1 + r2 then
          some (Contact.mk ((r1 + r2) - normV (c1 - c2))
            ((1 / normV (c1 - c2)) • (c1 - c2))
            (c1 - r1 • ((1 / normV (c1 - c2)) • (c1 - c2)))
            (c2 + r2 • ((1 / normV (c1 - c2)) • (c1 - c2))))
        else none := rfl
    rw [hmain] at hct
    by_cases h : normV (c1 - c2) < r1 + r2
    · rw [if_pos h, Option.some.injEq] at hct
      rw [← hct]
      exact normV_normalize _ hne
    · rw [if_neg h] at hct
      exact absurd hct (by simp)

/-- Witness for C3 amended: the box part applied to a sphere centered inside
a unit-half-size box (contact produced with unit local normal), and the
sphere part applied to the two distinct unit-sphere centers. -/
theorem contact_normal_unit_amended_witness :
    (∃ d nL cp, BoxSphereDcdContact.localContact (fun _ => 0) 2 2 2 1 =
        some (d, nL, cp) ∧ normV nL = 1) ∧
    (normV (vec3 (0:ℝ) 0 0 - vec3 (3/2) 0 0) ≠ 0 ∧
      ∀ ct, SphereSphereDcdContact.doCalculateContact (vec3 0 0 0)
          (vec3 (3/2) 0 0) 1 1 = some ct → normV ct.normal = 1) := by
  have hl := localContact_center 2 2 2 1 (by norm_num) (by norm_num) (by norm_num)
  have hne : normV (vec3 (0:ℝ) 0 0 - vec3 (3/2) 0 0) ≠ 0 := by
    rw [show vec3 (0:ℝ) 0 0 - vec3 (3/2) 0 0 = vec3 (-(3/2)) 0 0 by
        rw [vec3_sub]; norm_num,
      normV_vec3_x]
    norm_num
  exact ⟨⟨_, _, _, hl, contact_normal_unit_amended.1 _ 2 2 2 1 _ _ _ hl⟩,
    hne, fun ct hct => contact_normal_unit_amended.2 _ _ _ _ hne ct hct⟩

end OpenSurgSim
